import Mathlib

/-!
Shallow embedding of the prayer-time, notification-scheduling and
audio-playback logic of the easyAdhan application.

Time model: instants are milliseconds of local wall-clock time on a linear
axis (no DST / timezone discontinuities; the specification puts timezone
engineering out of scope).  A JavaScript `Date` holding instant `t` has
day start `t / 86400000 * 86400000` and millisecond field `t % 1000`, so
`setHours h; setMinutes m; setSeconds 0` on a copy of it yields
`dayStart t + h*3600000 + m*60000 + t % 1000` (the millisecond field is
not cleared by `setSeconds`), and `setDate (getDate() + 1)` adds exactly
`86400000`.  JavaScript strings are modelled as `List Char`.
-/

namespace EasyAdhan

def msPerDay : Nat := 86400000

/-- Start (in ms) of the calendar day containing instant `t`. -/
def dayStart (t : Nat) : Nat := t / msPerDay * msPerDay

/-- JavaScript `str.split(':')` on the character-list model of strings. -/
def splitColon : List Char → List (List Char)
  | [] => [[]]
  | c :: cs =>
    if c = ':' then [] :: splitColon cs
    else
      match splitColon cs with
      | [] => [[c]]
      | r :: rs => (c :: r) :: rs

/-- JavaScript `Number(...)` / `parseInt(..., 10)` restricted to the
all-digit strings the application feeds it (`HH` / `MM` components). -/
def digitsToNat (l : List Char) : Nat :=
  l.foldl (fun a c => a * 10 + (c.toNat - 48)) 0

/-- The character for a decimal digit `n < 10`. -/
def digitChar (n : Nat) : Char := Char.ofNat (48 + n)

/-- Zero-padded two-digit decimal rendering of `n < 100`; the shape of the
`HH` and `MM` components of a well-formed time string. -/
def pad2 (n : Nat) : List Char := [digitChar (n / 10), digitChar (n % 10)]

/-- The well-formed time string `HH:MM` for hour `h` and minute `m`. -/
def timeChars (h m : Nat) : List Char := pad2 h ++ ':' :: pad2 m

theorem splitColon_no_colon (l : List Char) (h : ':' ∉ l) : splitColon l = [l] := by
  induction l with
  | nil => rfl
  | cons c cs ih =>
    have hc : ¬ c = ':' := fun hc => h (hc ▸ List.mem_cons_self c cs)
    have hcs : ':' ∉ cs := fun hm => h (List.mem_cons_of_mem c hm)
    simp [splitColon, hc, ih hcs]

theorem splitColon_append (a b : List Char) (h : ':' ∉ a) :
    splitColon (a ++ ':' :: b) = a :: splitColon b := by
  induction a with
  | nil => simp [splitColon]
  | cons c cs ih =>
    have hc : ¬ c = ':' := fun hc => h (hc ▸ List.mem_cons_self c cs)
    have hcs : ':' ∉ cs := fun hm => h (List.mem_cons_of_mem c hm)
    simp [splitColon, hc, ih hcs]

theorem digitChar_toNat (n : Nat) (h : n < 10) : (digitChar n).toNat = 48 + n := by
  interval_cases n <;> rfl

theorem digitChar_ne_colon (n : Nat) (h : n < 10) : digitChar n ≠ ':' := by
  interval_cases n <;> decide

theorem pad2_no_colon (n : Nat) (h : n < 100) : ':' ∉ pad2 n := by
  intro hmem
  simp only [pad2, List.mem_cons, List.not_mem_nil, or_false] at hmem
  rcases hmem with h1 | h2
  · exact digitChar_ne_colon (n / 10) (by omega) h1.symm
  · exact digitChar_ne_colon (n % 10) (by omega) h2.symm

theorem digitsToNat_pad2 (n : Nat) (h : n < 100) : digitsToNat (pad2 n) = n := by
  simp only [digitsToNat, pad2, List.foldl]
  rw [digitChar_toNat (n / 10) (by omega), digitChar_toNat (n % 10) (by omega)]
  omega

/-- The `timeStr.split(':')` / `map(Number)` destructuring idiom shared by
`getPrayerDate`, `getRemainingTime`, `convertTo12Hour` and the schedulers:
the hour is parsed from the part before the first `:`, the minute from the
part after it. -/
def parseHM (timeStr : List Char) : Nat × Nat :=
  match splitColon timeStr with
  | hs :: ms :: _ => (digitsToNat hs, digitsToNat ms)
  | [hs] => (digitsToNat hs, 0)
  | [] => (0, 0)

theorem parseHM_timeChars (h m : Nat) (hh : h < 100) (hm : m < 100) :
    parseHM (timeChars h m) = (h, m) := by
  unfold parseHM timeChars
  rw [splitColon_append _ _ (pad2_no_colon h hh), splitColon_no_colon _ (pad2_no_colon m hm)]
  simp [digitsToNat_pad2 h hh, digitsToNat_pad2 m hm]

/-! ## Prayer-time core (src/screens/HomeScreen.tsx) -/

/-- The five daily prayers. -/
inductive Prayer
  | Fajr
  | Dhuhr
  | Asr
  | Maghrib
  | Isha
deriving DecidableEq

/-- The `PrayerTimings` record: five `HH:MM` strings. -/
structure PrayerTimings where
  Fajr : List Char
  Dhuhr : List Char
  Asr : List Char
  Maghrib : List Char
  Isha : List Char
deriving DecidableEq

/-- Field access `timings[prayer]`. -/
def timingOf (tm : PrayerTimings) : Prayer → List Char
  | .Fajr => tm.Fajr
  | .Dhuhr => tm.Dhuhr
  | .Asr => tm.Asr
  | .Maghrib => tm.Maghrib
  | .Isha => tm.Isha

/-- The fixed canonical iteration order of `getNextPrayer` and of
`Object.entries` over a `PrayerTimings` literal. -/
def allPrayers : List Prayer := [.Fajr, .Dhuhr, .Asr, .Maghrib, .Isha]

/-- Source `getPrayerDate` (HomeScreen.tsx 165-173): copy `now`, `setHours hour`,
`setMinutes minute`, `setSeconds 0`; the millisecond field of `now` is kept. -/
def getPrayerDate (now : Nat) (timeStr : List Char) : Nat :=
  let hm := parseHM timeStr
  dayStart now + hm.1 * 3600000 + hm.2 * 60000 + now % 1000

/-- The `for (const prayer of prayers) { if (prayerTime > now) return prayer }`
loop body of `getNextPrayer`, with the `return 'Fajr'` fallback. -/
def firstAfter (tm : PrayerTimings) (now : Nat) : List Prayer → Prayer
  | [] => .Fajr
  | p :: rest =>
    if now < getPrayerDate now (timingOf tm p) then p else firstAfter tm now rest

/-- Source `getNextPrayer` (HomeScreen.tsx 175-183): first prayer in canonical order
whose same-day instant is strictly after `now`, else Fajr. -/
def getNextPrayer (tm : PrayerTimings) (now : Nat) : Prayer :=
  firstAfter tm now allPrayers

/-- The derived `{hours, minutes, seconds}` countdown value. -/
structure RemainingTime where
  hours : Nat
  minutes : Nat
  seconds : Nat
deriving DecidableEq

/-- Source `getRemainingTime` (HomeScreen.tsx 185-205).  The source computes
`diff = prayerTime - now` and rolls one day forward only when `diff < 0`,
i.e. when the instant is strictly before `now`; after the roll the
difference is non-negative, so `Math.floor(diff / 1000)` is the natural
division below. -/
def getRemainingTime (now : Nat) (prayerTimeStr : List Char) : RemainingTime :=
  let hm := parseHM prayerTimeStr
  let pt := dayStart now + hm.1 * 3600000 + hm.2 * 60000 + now % 1000
  let pt2 := if pt < now then pt + msPerDay else pt
  let totalSeconds := (pt2 - now) / 1000
  ⟨totalSeconds / 3600, totalSeconds % 3600 / 60, totalSeconds % 60⟩

/-- Variant of `getRemainingTime` written from the claim's words instead of
the source: the date is advanced by one calendar day when the instant is
*at or before* `now` (the source advances it only when strictly before).
Used solely to exhibit where the two disagree. -/
def getRemainingTimeClaimed (now : Nat) (prayerTimeStr : List Char) : RemainingTime :=
  let hm := parseHM prayerTimeStr
  let pt := dayStart now + hm.1 * 3600000 + hm.2 * 60000 + now % 1000
  let pt2 := if pt ≤ now then pt + msPerDay else pt
  let totalSeconds := (pt2 - now) / 1000
  ⟨totalSeconds / 3600, totalSeconds % 3600 / 60, totalSeconds % 60⟩

/-- The spec-side description of "today's instant for `h:m`" seen from
instant `now` (the `Date` so built keeps `now`'s millisecond field). -/
def prayerInstant (now h m : Nat) : Nat :=
  dayStart now + h * 3600000 + m * 60000 + now % 1000

/-- The spec-side description of the countdown target: today's instant,
advanced one calendar day when it lies strictly before `now`. -/
def rolledInstant (now h m : Nat) : Nat :=
  if prayerInstant now h m < now then prayerInstant now h m + msPerDay
  else prayerInstant now h m

theorem firstAfter_mem_or (tm : PrayerTimings) (now : Nat) :
    ∀ l : List Prayer, firstAfter tm now l ∈ l ∨ firstAfter tm now l = .Fajr
  | [] => .inr rfl
  | p :: rest => by
    simp only [firstAfter]
    split
    · exact .inl (List.mem_cons_self _ _)
    · rcases firstAfter_mem_or tm now rest with h | h
      · exact .inl (List.mem_cons_of_mem _ h)
      · exact .inr h

theorem firstAfter_of_none (tm : PrayerTimings) (now : Nat) :
    ∀ l : List Prayer, (∀ p ∈ l, getPrayerDate now (timingOf tm p) ≤ now) →
      firstAfter tm now l = .Fajr
  | [], _ => rfl
  | p :: rest, h => by
    have hp := h p (List.mem_cons_self _ _)
    simp only [firstAfter, Nat.not_lt.mpr hp, if_neg (Nat.not_lt.mpr hp)]
    exact firstAfter_of_none tm now rest fun q hq => h q (List.mem_cons_of_mem _ hq)

theorem firstAfter_is_after (tm : PrayerTimings) (now : Nat) :
    ∀ l : List Prayer, ∀ p ∈ l, now < getPrayerDate now (timingOf tm p) →
      now < getPrayerDate now (timingOf tm (firstAfter tm now l))
  | [], p, hp, _ => absurd hp (List.not_mem_nil p)
  | q :: rest, p, hp, hafter => by
    simp only [firstAfter]
    split
    · assumption
    · rename_i hq
      rcases List.mem_cons.mp hp with rfl | hrest
      · exact absurd hafter hq
      · exact firstAfter_is_after tm now rest p hrest hafter

theorem firstAfter_min (tm : PrayerTimings) (now : Nat) :
    ∀ l : List Prayer,
      l.Pairwise (fun a b => getPrayerDate now (timingOf tm a) ≤ getPrayerDate now (timingOf tm b)) →
      ∀ p ∈ l, now < getPrayerDate now (timingOf tm p) →
      getPrayerDate now (timingOf tm (firstAfter tm now l)) ≤ getPrayerDate now (timingOf tm p)
  | [], _, p, hp, _ => absurd hp (List.not_mem_nil p)
  | q :: rest, hpair, p, hp, hafter => by
    simp only [firstAfter]
    split
    · rcases List.mem_cons.mp hp with rfl | hrest
      · exact Nat.le_refl _
      · exact (List.pairwise_cons.mp hpair).1 p hrest
    · rename_i hq
      rcases List.mem_cons.mp hp with rfl | hrest
      · exact absurd hafter hq
      · exact firstAfter_min tm now rest (List.pairwise_cons.mp hpair).2 p hrest hafter

/-- Valid but chronologically unsorted timings: Fajr is listed at 23:00,
after the other prayers' times of day. -/
def unsortedTimings : PrayerTimings :=
  ⟨timeChars 23 0, timeChars 1 0, timeChars 2 0, timeChars 3 0, timeChars 4 0⟩

/-- C1: counterexample.  At 00:30:00.000, every prayer of `unsortedTimings`
(valid per the claim: hours in [0,23], minutes in [0,59]) lies strictly
after `now`, yet `getNextPrayer` returns Fajr (23:00), whose instant is
not the earliest one strictly after `now` — Dhuhr (01:00) is earlier. -/
theorem getNextPrayer_not_earliest_cex :
    getNextPrayer unsortedTimings 1800000 = .Fajr ∧
    1800000 < getPrayerDate 1800000 (timingOf unsortedTimings .Dhuhr) ∧
    getPrayerDate 1800000 (timingOf unsortedTimings .Dhuhr) <
      getPrayerDate 1800000 (timingOf unsortedTimings .Fajr) := by
  decide

/-- C1 (amended): for every `PrayerTimings` whose five same-day instants are
chronologically nondecreasing in canonical order, `getNextPrayer` returns one
of the five prayers; it returns Fajr when no prayer's instant is strictly
after `now` (a prayer whose instant equals `now` counts as passed); and when
some prayer's instant is strictly after `now`, the returned prayer's instant
is itself strictly after `now` and is the earliest such. -/
theorem getNextPrayer_sorted_correct (tm : PrayerTimings) (now : Nat)
    (hsort : getPrayerDate now tm.Fajr ≤ getPrayerDate now tm.Dhuhr ∧
             getPrayerDate now tm.Dhuhr ≤ getPrayerDate now tm.Asr ∧
             getPrayerDate now tm.Asr ≤ getPrayerDate now tm.Maghrib ∧
             getPrayerDate now tm.Maghrib ≤ getPrayerDate now tm.Isha) :
    getNextPrayer tm now ∈ allPrayers ∧
    ((∀ p ∈ allPrayers, getPrayerDate now (timingOf tm p) ≤ now) →
      getNextPrayer tm now = .Fajr) ∧
    (∀ p ∈ allPrayers, now < getPrayerDate now (timingOf tm p) →
      now < getPrayerDate now (timingOf tm (getNextPrayer tm now)) ∧
      getPrayerDate now (timingOf tm (getNextPrayer tm now)) ≤
        getPrayerDate now (timingOf tm p)) := by
  obtain ⟨h1, h2, h3, h4⟩ := hsort
  have hpair : allPrayers.Pairwise
      (fun a b => getPrayerDate now (timingOf tm a) ≤ getPrayerDate now (timingOf tm b)) := by
    refine List.Pairwise.cons ?_ (List.Pairwise.cons ?_ (List.Pairwise.cons ?_
      (List.Pairwise.cons ?_ (List.Pairwise.cons ?_ List.Pairwise.nil))))
    all_goals intro b hb
    all_goals cases b <;> simp_all [timingOf] <;> omega
  refine ⟨?_, firstAfter_of_none tm now allPrayers, fun p hp hap => ?_⟩
  · rcases firstAfter_mem_or tm now allPrayers with h | h
    · exact h
    · rw [getNextPrayer, h]; decide
  · exact ⟨firstAfter_is_after tm now allPrayers p hp hap,
      firstAfter_min tm now allPrayers hpair p hp hap⟩

/-- C1: witness.  The spec's own scenario: sorted timings
05:00 / 12:30 / 15:45 / 18:20 / 19:50, `now` = 13:00; the amended theorem
applies and the returned prayer is Asr. -/
theorem getNextPrayer_sorted_correct_witness :
    getNextPrayer
      ⟨timeChars 5 0, timeChars 12 30, timeChars 15 45, timeChars 18 20, timeChars 19 50⟩
      46800000 = .Asr ∧
    (getNextPrayer
        ⟨timeChars 5 0, timeChars 12 30, timeChars 15 45, timeChars 18 20, timeChars 19 50⟩
        46800000 ∈ allPrayers ∧
      ((∀ p ∈ allPrayers, getPrayerDate 46800000 (timingOf
          ⟨timeChars 5 0, timeChars 12 30, timeChars 15 45, timeChars 18 20, timeChars 19 50⟩ p)
          ≤ 46800000) →
        getNextPrayer
          ⟨timeChars 5 0, timeChars 12 30, timeChars 15 45, timeChars 18 20, timeChars 19 50⟩
          46800000 = .Fajr) ∧
      (∀ p ∈ allPrayers, 46800000 < getPrayerDate 46800000 (timingOf
          ⟨timeChars 5 0, timeChars 12 30, timeChars 15 45, timeChars 18 20, timeChars 19 50⟩ p) →
        46800000 < getPrayerDate 46800000 (timingOf
          ⟨timeChars 5 0, timeChars 12 30, timeChars 15 45, timeChars 18 20, timeChars 19 50⟩
          (getNextPrayer
            ⟨timeChars 5 0, timeChars 12 30, timeChars 15 45, timeChars 18 20, timeChars 19 50⟩
            46800000)) ∧
        getPrayerDate 46800000 (timingOf
          ⟨timeChars 5 0, timeChars 12 30, timeChars 15 45, timeChars 18 20, timeChars 19 50⟩
          (getNextPrayer
            ⟨timeChars 5 0, timeChars 12 30, timeChars 15 45, timeChars 18 20, timeChars 19 50⟩
            46800000)) ≤
          getPrayerDate 46800000 (timingOf
            ⟨timeChars 5 0, timeChars 12 30, timeChars 15 45, timeChars 18 20, timeChars 19 50⟩
            p))) :=
  ⟨by decide,
    getNextPrayer_sorted_correct
      ⟨timeChars 5 0, timeChars 12 30, timeChars 15 45, timeChars 18 20, timeChars 19 50⟩
      46800000 (by refine ⟨?_, ?_, ?_, ?_⟩ <;> decide)⟩

/-- C2: counterexample.  At `now` = 05:00:00.000 exactly, the prayer instant
for "05:00" equals `now`; the source rolls the date only on a strictly
negative difference and returns `{0,0,0}`, while the claim's
"at or before `now` advances one day" reading would return `{24,0,0}`. -/
theorem getRemainingTime_equal_now_cex :
    getRemainingTime 18000000 (timeChars 5 0) = ⟨0, 0, 0⟩ ∧
    getRemainingTimeClaimed 18000000 (timeChars 5 0) = ⟨24, 0, 0⟩ ∧
    getRemainingTime 18000000 (timeChars 5 0) ≠
      getRemainingTimeClaimed 18000000 (timeChars 5 0) := by
  decide

/-- C2 (amended): for every well-formed `HH:MM` string and every `now`,
`getRemainingTime` targets today's instant, advanced by exactly one calendar
day when that instant is *strictly before* `now` (not when equal); the
target is at or after `now`, so the total remaining seconds
`hours*3600 + minutes*60 + seconds` equal the non-negative floored
difference, with minutes and seconds in range. -/
theorem getRemainingTime_correct (now h m : Nat) (hh : h < 24) (hm : m < 60) :
    now ≤ rolledInstant now h m ∧
    (getRemainingTime now (timeChars h m)).hours * 3600 +
      (getRemainingTime now (timeChars h m)).minutes * 60 +
      (getRemainingTime now (timeChars h m)).seconds =
      (rolledInstant now h m - now) / 1000 ∧
    (getRemainingTime now (timeChars h m)).minutes < 60 ∧
    (getRemainingTime now (timeChars h m)).seconds < 60 := by
  have hp : parseHM (timeChars h m) = (h, m) := parseHM_timeChars h m (by omega) (by omega)
  simp only [getRemainingTime, rolledInstant, prayerInstant, hp, dayStart, msPerDay]
  refine ⟨?_, ?_, ?_, ?_⟩ <;> split <;> omega

/-- C2: witness.  The spec's scenario: `now` = 20:30:00.000,
`remaining("05:00")` rolls to the next day and yields 8h30m0s; the amended
theorem applies there. -/
theorem getRemainingTime_correct_witness :
    getRemainingTime 73800000 (timeChars 5 0) = ⟨8, 30, 0⟩ ∧
    (73800000 ≤ rolledInstant 73800000 5 0 ∧
      (getRemainingTime 73800000 (timeChars 5 0)).hours * 3600 +
        (getRemainingTime 73800000 (timeChars 5 0)).minutes * 60 +
        (getRemainingTime 73800000 (timeChars 5 0)).seconds =
        (rolledInstant 73800000 5 0 - 73800000) / 1000 ∧
      (getRemainingTime 73800000 (timeChars 5 0)).minutes < 60 ∧
      (getRemainingTime 73800000 (timeChars 5 0)).seconds < 60) :=
  ⟨by decide, getRemainingTime_correct 73800000 5 0 (by decide) (by decide)⟩

/-! ## Notification schedulers

Two live implementations exist: `schedulePrayerNotifications` in
HomeScreen.tsx (455-503, used when prayer times load in the foreground) and
`schedulePrayerNotifications` in src/services/notificationManager.ts
(57-90, used by the background-fetch task in App.tsx).  Both are embedded.
The external notification collaborator's set of scheduled notifications is
modelled as a list; `cancelAllScheduledNotificationsAsync` empties it.
A throwing `scheduleNotificationAsync` is modelled by the `fails` oracle. -/

/-- A scheduled one-shot reminder: which prayer, and its trigger instant. -/
structure Notification where
  prayer : Prayer
  trigger : Nat
deriving DecidableEq

/-- Trigger computation of the HomeScreen scheduler (465-474): copy `now`
(keeping its milliseconds), set `hour:minute:00`, and roll one day forward
when the result is at or before `now` (`triggerTime <= now`). -/
def hsTrigger (now : Nat) (timeStr : List Char) : Nat :=
  let hm := parseHM timeStr
  let tr := dayStart now + hm.1 * 3600000 + hm.2 * 60000 + now % 1000
  if tr ≤ now then tr + msPerDay else tr

/-- Trigger computation of the notificationManager scheduler (65-73):
`new Date(y, mo, d, hour, minute)` (seconds and milliseconds zero), rolled
one day forward only when strictly before `now` (`prayerDate < now`). -/
def nmTrigger (now : Nat) (timeStr : List Char) : Nat :=
  let hm := parseHM timeStr
  let tr := dayStart now + hm.1 * 3600000 + hm.2 * 60000
  if tr < now then tr + msPerDay else tr

/-- The HomeScreen scheduling loop (464-498): schedule a prayer only when
`timeDiff > 300000`; `scheduleNotificationAsync` is awaited with no
per-iteration catch, so a failure (`fails p`) rejects the whole run —
the Bool result records whether it threw, and on a throw the remaining
prayers are not visited.  (`tr - now` is the JS `timeDiff`: the trigger is
always strictly after `now`, so natural subtraction is exact.) -/
def hsLoop (tm : PrayerTimings) (now : Nat) (fails : Prayer → Bool) :
    List Prayer → List Notification → List Notification × Bool
  | [], acc => (acc, false)
  | p :: rest, acc =>
    let tr := hsTrigger now (timingOf tm p)
    if 300000 < tr - now then
      if fails p then (acc, true)
      else hsLoop tm now fails rest (acc ++ [⟨p, tr⟩])
    else hsLoop tm now fails rest acc

/-- Operation `cancelAllScheduledNotificationsAsync`: empties the collaborator's set
of pending notifications. -/
def cancelAllScheduled (_pending : List Notification) : List Notification := []

/-- Source `schedulePrayerNotifications` (HomeScreen.tsx 455-503): cancel all
previously scheduled notifications first, then run the scheduling loop over
the five prayers in canonical order. -/
def schedulePrayerNotificationsHS (tm : PrayerTimings) (now : Nat) (fails : Prayer → Bool)
    (pending : List Notification) : List Notification × Bool :=
  hsLoop tm now fails allPrayers (cancelAllScheduled pending)

/-- The notificationManager scheduling loop (63-89): every prayer is
scheduled unconditionally; `scheduleNotificationAsync` is wrapped in a
per-iteration try/catch, so a failure is logged and the loop continues. -/
def nmLoop (tm : PrayerTimings) (now : Nat) (fails : Prayer → Bool) :
    List Prayer → List Notification → List Notification
  | [], acc => acc
  | p :: rest, acc =>
    let tr := nmTrigger now (timingOf tm p)
    if fails p then nmLoop tm now fails rest acc
    else nmLoop tm now fails rest (acc ++ [⟨p, tr⟩])

/-- Source `schedulePrayerNotifications` (notificationManager.ts 57-90): cancel all
previously scheduled notifications first (`cancelAllNotifications`), then
run the loop over the five prayers. -/
def schedulePrayerNotificationsNM (tm : PrayerTimings) (now : Nat) (fails : Prayer → Bool)
    (pending : List Notification) : List Notification :=
  nmLoop tm now fails allPrayers (cancelAllScheduled pending)

/-- Closed form of the HomeScreen loop: of the eligible prayers (those more
than five minutes in the future), exactly the prefix before the first
failing one is appended, and the Bool records whether a failure occurred. -/
theorem hsLoop_closed (tm : PrayerTimings) (now : Nat) (fails : Prayer → Bool) :
    ∀ (l : List Prayer) (acc : List Notification),
    hsLoop tm now fails l acc =
      (acc ++ (((l.filter fun p => decide (300000 < hsTrigger now (timingOf tm p) - now)).takeWhile
          fun p => !fails p).map fun p => (⟨p, hsTrigger now (timingOf tm p)⟩ : Notification)),
       !((l.filter fun p => decide (300000 < hsTrigger now (timingOf tm p) - now)).dropWhile
          fun p => !fails p).isEmpty)
  | [], acc => by simp [hsLoop]
  | p :: rest, acc => by
    by_cases helig : 300000 < hsTrigger now (timingOf tm p) - now
    · by_cases hf : fails p = true
      · simp [hsLoop, if_pos helig, hf, List.filter_cons, List.takeWhile, List.dropWhile, helig]
      · simp only [Bool.not_eq_true] at hf
        simp [hsLoop, if_pos helig, hf, List.filter_cons, List.takeWhile, List.dropWhile, helig,
          hsLoop_closed tm now fails rest (acc ++ [⟨p, hsTrigger now (timingOf tm p)⟩])]
    · simp [hsLoop, if_neg helig, List.filter_cons, helig,
        hsLoop_closed tm now fails rest acc]

/-- Closed form of the notificationManager loop: every non-failing prayer is
appended with its trigger; failing ones are skipped. -/
theorem nmLoop_closed (tm : PrayerTimings) (now : Nat) (fails : Prayer → Bool) :
    ∀ (l : List Prayer) (acc : List Notification),
    nmLoop tm now fails l acc =
      acc ++ ((l.filter fun p => !fails p).map
        fun p => (⟨p, nmTrigger now (timingOf tm p)⟩ : Notification))
  | [], acc => by simp [nmLoop]
  | p :: rest, acc => by
    by_cases hf : fails p = true
    · simp [nmLoop, hf, List.filter_cons, nmLoop_closed tm now fails rest acc]
    · simp only [Bool.not_eq_true] at hf
      simp [nmLoop, hf, List.filter_cons,
        nmLoop_closed tm now fails rest (acc ++ [⟨p, nmTrigger now (timingOf tm p)⟩])]

/-- Both triggers are never in the past: the HomeScreen trigger is strictly
after `now`; the notificationManager trigger is at or after `now` (it can
equal `now` exactly, since its roll condition is strict). -/
theorem trigger_not_past (now : Nat) (t : List Char) :
    now < hsTrigger now t ∧ now ≤ nmTrigger now t := by
  unfold hsTrigger nmTrigger dayStart msPerDay
  dsimp only
  constructor <;> split <;> omega

theorem takeWhile_always {α : Type} (l : List α) : l.takeWhile (fun _ => true) = l := by
  induction l <;> simp [List.takeWhile, *]

theorem dropWhile_always {α : Type} (l : List α) : l.dropWhile (fun _ => true) = [] := by
  induction l <;> simp [List.dropWhile, *]

/-- Valid timings placing Dhuhr at 12:01, one minute after the noon instant
used as `now` in the counterexamples. -/
def within5Timings : PrayerTimings :=
  ⟨timeChars 5 0, timeChars 12 1, timeChars 15 45, timeChars 18 20, timeChars 19 50⟩

/-- The spec's example timings 05:00 / 12:30 / 15:45 / 18:20 / 19:50. -/
def specTimings : PrayerTimings :=
  ⟨timeChars 5 0, timeChars 12 30, timeChars 15 45, timeChars 18 20, timeChars 19 50⟩

/-- C3: counterexample.  The notificationManager scheduler has no 5-minute
filter: at `now` = 12:00:00.000 it schedules Dhuhr (12:01) although its
trigger is only 60 seconds — well inside the 5-minute window the claim says
is silently skipped. -/
theorem nm_scheduler_no_window_cex :
    (⟨.Dhuhr, 43260000⟩ : Notification) ∈
      schedulePrayerNotificationsNM within5Timings 43200000 (fun _ => false) [] ∧
    43260000 - 43200000 ≤ 300000 := by
  decide

/-- C3 (amended): the HomeScreen scheduler behaves as claimed: its trigger
is today's instant rolled one day forward when at or before `now`, it is
always strictly after `now`, its run throws nothing when no scheduling call
fails, and it schedules exactly the prayers whose trigger is more than
300000 ms after `now`, skipping the rest.  The notificationManager
scheduler (used by the background task) rolls only when strictly before
`now` and schedules every prayer unconditionally — it has no 5-minute
skip window. -/
theorem schedulers_window_behavior (tm : PrayerTimings) (now : Nat) (t : List Char)
    (pending pending' : List Notification) :
    (schedulePrayerNotificationsHS tm now (fun _ => false) pending).1 =
      ((allPrayers.filter fun p => decide (300000 < hsTrigger now (timingOf tm p) - now)).map
        fun p => (⟨p, hsTrigger now (timingOf tm p)⟩ : Notification)) ∧
    (schedulePrayerNotificationsHS tm now (fun _ => false) pending).2 = false ∧
    now < hsTrigger now t ∧
    schedulePrayerNotificationsNM tm now (fun _ => false) pending' =
      (allPrayers.map fun p => (⟨p, nmTrigger now (timingOf tm p)⟩ : Notification)) := by
  refine ⟨?_, ?_, (trigger_not_past now t).1, ?_⟩
  · rw [schedulePrayerNotificationsHS, hsLoop_closed]
    simp [cancelAllScheduled, takeWhile_always]
  · rw [schedulePrayerNotificationsHS, hsLoop_closed]
    simp [dropWhile_always]
  · rw [schedulePrayerNotificationsNM, nmLoop_closed]
    simp [cancelAllScheduled]

/-- C4: the cancel-all reset makes one scheduling run's outcome independent
of whatever was pending before (cancellation precedes creation, so no old
notification survives), hence scheduling twice with the same timings leaves
exactly the last run's notifications; both schedulers produce at most five. -/
theorem schedule_idempotent (tm : PrayerTimings) (now : Nat)
    (pending pending' : List Notification) :
    (schedulePrayerNotificationsHS tm now (fun _ => false) pending).1 =
      (schedulePrayerNotificationsHS tm now (fun _ => false) pending').1 ∧
    (schedulePrayerNotificationsHS tm now (fun _ => false)
        (schedulePrayerNotificationsHS tm now (fun _ => false) pending).1).1 =
      (schedulePrayerNotificationsHS tm now (fun _ => false) pending).1 ∧
    (schedulePrayerNotificationsHS tm now (fun _ => false) pending).1.length ≤ 5 ∧
    schedulePrayerNotificationsNM tm now (fun _ => false)
        (schedulePrayerNotificationsNM tm now (fun _ => false) pending) =
      schedulePrayerNotificationsNM tm now (fun _ => false) pending ∧
    (schedulePrayerNotificationsNM tm now (fun _ => false) pending).length ≤ 5 := by
  refine ⟨rfl, rfl, ?_, rfl, ?_⟩
  · rw [schedulePrayerNotificationsHS, hsLoop_closed]
    simp only [cancelAllScheduled, List.nil_append, List.length_map]
    calc ((allPrayers.filter fun p =>
            decide (300000 < hsTrigger now (timingOf tm p) - now)).takeWhile
            fun p => !(fun _ : Prayer => false) p).length
        ≤ (allPrayers.filter fun p =>
            decide (300000 < hsTrigger now (timingOf tm p) - now)).length :=
          (List.takeWhile_sublist _).length_le
      _ ≤ allPrayers.length := (List.filter_sublist _).length_le
      _ = 5 := rfl
  · rw [schedulePrayerNotificationsNM, nmLoop_closed]
    simp only [cancelAllScheduled, List.nil_append, List.length_map]
    calc (allPrayers.filter fun p => !(fun _ : Prayer => false) p).length
        ≤ allPrayers.length := (List.filter_sublist _).length_le
      _ = 5 := rfl

/-- C5: counterexample.  In the HomeScreen scheduler there is no
per-prayer catch: with every prayer eligible at midnight and the very first
(Fajr) scheduling call failing, the run throws and schedules nothing — the
remaining four prayers, although eligible and non-failing, do not proceed. -/
theorem hs_scheduler_abort_cex :
    (schedulePrayerNotificationsHS specTimings 0 (fun p => decide (p = .Fajr)) []).1 = [] ∧
    (schedulePrayerNotificationsHS specTimings 0 (fun p => decide (p = .Fajr)) []).2 = true ∧
    (fun p => decide (p = Prayer.Fajr)) Prayer.Dhuhr = false ∧
    300000 < hsTrigger 0 (timingOf specTimings .Dhuhr) - 0 := by
  decide

/-- C5 (amended): the notificationManager scheduler is best-effort as the
claim states: every non-failing prayer is scheduled no matter which other
prayers' scheduling calls fail, and failing ones are merely skipped.  The
HomeScreen scheduler is not: it schedules exactly the eligible prayers
strictly before the first failing one, aborting the rest of the run. -/
theorem schedulers_failure_behavior (tm : PrayerTimings) (now : Nat) (fails : Prayer → Bool)
    (pending pending' : List Notification) :
    (∀ p ∈ allPrayers, fails p = false →
      (⟨p, nmTrigger now (timingOf tm p)⟩ : Notification) ∈
        schedulePrayerNotificationsNM tm now fails pending) ∧
    (∀ n ∈ schedulePrayerNotificationsNM tm now fails pending, fails n.prayer = false) ∧
    (schedulePrayerNotificationsHS tm now fails pending').1 =
      (((allPrayers.filter fun p => decide (300000 < hsTrigger now (timingOf tm p) - now)).takeWhile
        fun p => !fails p).map fun p => (⟨p, hsTrigger now (timingOf tm p)⟩ : Notification)) := by
  refine ⟨fun p hp hf => ?_, fun n hn => ?_, ?_⟩
  · rw [schedulePrayerNotificationsNM, nmLoop_closed]
    simp only [cancelAllScheduled, List.nil_append, List.mem_map]
    exact ⟨p, List.mem_filter.mpr ⟨hp, by simp [hf]⟩, rfl⟩
  · rw [schedulePrayerNotificationsNM, nmLoop_closed] at hn
    simp only [cancelAllScheduled, List.nil_append, List.mem_map] at hn
    obtain ⟨q, hq, rfl⟩ := hn
    have := (List.mem_filter.mp hq).2
    simpa using this
  · rw [schedulePrayerNotificationsHS, hsLoop_closed]
    simp [cancelAllScheduled]

/-- C5: witness.  With Fajr's call failing, the notificationManager
scheduler still schedules Dhuhr. -/
theorem schedulers_failure_behavior_witness :
    (⟨.Dhuhr, nmTrigger 0 (timingOf specTimings .Dhuhr)⟩ : Notification) ∈
      schedulePrayerNotificationsNM specTimings 0 (fun p => decide (p = .Fajr)) [] :=
  (schedulers_failure_behavior specTimings 0 (fun p => decide (p = .Fajr)) [] []).1
    .Dhuhr (by decide) (by decide)

/-! ## Audio playback session

Two live implementations exist: `playAzan`/`stopAzan` inside
HomeScreen.tsx (236-292, with React state `azanPlaying : boolean | null`,
an `audioLoading` flag and persistence via AsyncStorage) and the
module-level `playAzan`/`stopAzan` of src/services/audioManager.ts
(the unnamed part_000, used by App.tsx's notification listener).
Audio handles are modelled by numeric ids; `live` is the list of created
and not-yet-unloaded handles; `alerts` collects user-visible notices.
`PlayErr` injects a failure at one of the two awaited acquisition steps
(stopping/unloading a prior handle, or `Audio.Sound.createAsync`). -/

/-- The persisted `@azan_playing_state` value. -/
structure AzanStored where
  isPlaying : Bool
  timestamp : Nat
deriving DecidableEq

/-- Source `saveAzanState` (HomeScreen.tsx 114-130): a `true` transition writes
`{isPlaying: true, timestamp: now}`; a `false` transition removes the key
instead of writing `isPlaying: false`. -/
def saveAzanState (now : Nat) (isPlaying : Bool) : Option AzanStored :=
  if isPlaying then some ⟨true, now⟩ else none

/-- Source `loadAzanState` (HomeScreen.tsx 76-111), run once at mount: returns the
storage contents afterwards and the resulting `azanPlaying` React state,
which starts as `null` (`none`).  A stored entry is restored only when
`isPlaying` is set and it is less than 300000 ms old; otherwise it is
removed and `azanPlaying` is left at `null`.  With no entry, `azanPlaying`
is set to `false`. -/
def loadAzanState (now : Nat) (storage : Option AzanStored) :
    Option AzanStored × Option Bool :=
  match storage with
  | some st =>
    if st.isPlaying ∧ (now : Int) - (st.timestamp : Int) < 300000 then (storage, some true)
    else (none, none)
  | none => (none, some false)

/-- The UI renders the playing state truthily
(`azanPlaying ? 'Stop Adhan' : 'Play Adhan'`): `null` and `false` both
show not-playing. -/
def showsPlaying (azanPlaying : Option Bool) : Bool := azanPlaying = some true

/-- Which awaited acquisition step of a `start()` run throws. -/
inductive PlayErr
  | ok
  | stopPrior
  | create
deriving DecidableEq

/-- State owned by the HomeScreen audio session. -/
structure AudioState where
  azanPlaying : Option Bool
  audioLoading : Bool
  soundCur : Option Nat
  live : List Nat
  nextId : Nat
  storage : Option AzanStored
  alerts : List String
deriving DecidableEq

/-- Source `playAzan` (HomeScreen.tsx 236-273).  Gate on `settings.azanEnabled`;
early return when `azanPlaying` is truthy (the only single-flight guard —
`audioLoading` is never consulted); then set loading, stop/unload any prior
handle, create and play a new one, set `azanPlaying`, persist, with a
`catch` that alerts and a `finally` that clears loading. -/
def playAzan (enabled : Bool) (now : Nat) (err : PlayErr) (s : AudioState) : AudioState :=
  if ¬ enabled then { s with alerts := s.alerts ++ ["Azan Disabled"] }
  else if s.azanPlaying = some true then s
  else
    match s.soundCur with
    | some h =>
      if err = .stopPrior then
        { s with audioLoading := false, alerts := s.alerts ++ ["Audio Error"] }
      else if err = .create then
        { s with live := s.live.erase h, audioLoading := false,
                 alerts := s.alerts ++ ["Audio Error"] }
      else
        { s with soundCur := some s.nextId, live := s.live.erase h ++ [s.nextId],
                 nextId := s.nextId + 1, azanPlaying := some true,
                 storage := saveAzanState now true, audioLoading := false }
    | none =>
      if err = .create then
        { s with audioLoading := false, alerts := s.alerts ++ ["Audio Error"] }
      else
        { s with soundCur := some s.nextId, live := s.live ++ [s.nextId],
                 nextId := s.nextId + 1, azanPlaying := some true,
                 storage := saveAzanState now true, audioLoading := false }

/-- Source `stopAzan` (HomeScreen.tsx 275-292).  Early return when `azanPlaying`
is falsy (`null` or `false`); otherwise stop/unload/null the handle inside
a try (a failure there is only logged, `err` injects it), and in `finally`
set `azanPlaying` to `false` and remove the persisted state. -/
def stopAzan (now : Nat) (err : Bool) (s : AudioState) : AudioState :=
  if ¬ (s.azanPlaying = some true) then s
  else
    let s2 :=
      match s.soundCur with
      | some h => if err then s else { s with live := s.live.erase h, soundCur := none }
      | none => s
    { s2 with azanPlaying := some false, storage := saveAzanState now false }

/-- State of the module-level audioManager player (part_000). -/
structure MgrState where
  sound : Option Nat
  isPlaying : Bool
  live : List Nat
  nextId : Nat
  alerts : List String
deriving DecidableEq

/-- Source `playAzan` (audioManager, part_000 12-46).  No guard of any kind: it
always stops/unloads any prior handle and creates a new one; the single
`catch` logs and alerts.  On success `isPlaying` becomes true. -/
def mgrPlayAzan (err : PlayErr) (s : MgrState) : MgrState :=
  match s.sound with
  | some h =>
    if err = .stopPrior then { s with alerts := s.alerts ++ ["Audio Error"] }
    else if err = .create then
      { s with live := s.live.erase h, alerts := s.alerts ++ ["Audio Error"] }
    else
      { s with sound := some s.nextId, live := s.live.erase h ++ [s.nextId],
               nextId := s.nextId + 1, isPlaying := true }
  | none =>
    if err = .create then { s with alerts := s.alerts ++ ["Audio Error"] }
    else
      { s with sound := some s.nextId, live := s.live ++ [s.nextId],
               nextId := s.nextId + 1, isPlaying := true }

/-- Source `stopAzan` (audioManager, part_000 48-60): only acts when a handle
exists; `isPlaying := false` happens inside the try after the unload, so an
injected failure leaves `isPlaying` untouched; errors are only logged. -/
def mgrStopAzan (err : Bool) (s : MgrState) : MgrState :=
  match s.sound with
  | some h =>
    if err then s
    else { s with live := s.live.erase h, sound := none, isPlaying := false }
  | none => s

/-- At most one live audio handle, and `live` tracks `sound.current`. -/
def audioInv (s : AudioState) : Prop :=
  match s.soundCur with
  | none => s.live = []
  | some h => s.live = [] ∨ s.live = [h]

/-- At most one live audio handle in the audioManager module. -/
def mgrInv (s : MgrState) : Prop :=
  match s.sound with
  | none => s.live = []
  | some h => s.live = [] ∨ s.live = [h]

theorem audioInv_length (s : AudioState) (h : audioInv s) : s.live.length ≤ 1 := by
  unfold audioInv at h
  rcases hsc : s.soundCur with _ | hd <;> rw [hsc] at h
  · simp [h]
  · rcases h with h | h <;> simp [h]

theorem mgrInv_length (s : MgrState) (h : mgrInv s) : s.live.length ≤ 1 := by
  unfold mgrInv at h
  rcases hsc : s.sound with _ | hd <;> rw [hsc] at h
  · simp [h]
  · rcases h with h | h <;> simp [h]

theorem playAzan_preserves_inv (enabled : Bool) (now : Nat) (err : PlayErr)
    (s : AudioState) (hInv : audioInv s) : audioInv (playAzan enabled now err s) := by
  obtain ⟨ap, al, sc, lv, nid, st, als⟩ := s
  rcases sc with _ | hd
  · simp only [audioInv] at hInv
    subst hInv
    by_cases he : enabled <;> by_cases hp : ap = some true <;> cases err <;>
      simp [playAzan, audioInv, he, hp]
  · simp only [audioInv] at hInv
    rcases hInv with h | h <;> subst h <;>
      by_cases he : enabled <;> by_cases hp : ap = some true <;> cases err <;>
        simp [playAzan, audioInv, he, hp, List.erase_cons_head]

theorem stopAzan_preserves_inv (now : Nat) (err : Bool) (s : AudioState)
    (hInv : audioInv s) : audioInv (stopAzan now err s) := by
  obtain ⟨ap, al, sc, lv, nid, st, als⟩ := s
  rcases sc with _ | hd
  · simp only [audioInv] at hInv
    subst hInv
    by_cases hp : ap = some true <;> cases err <;>
      simp [stopAzan, audioInv, hp]
  · simp only [audioInv] at hInv
    rcases hInv with h | h <;> subst h <;>
      by_cases hp : ap = some true <;> cases err <;>
        simp [stopAzan, audioInv, hp, List.erase_cons_head]

theorem mgrPlayAzan_preserves_inv (err : PlayErr) (s : MgrState)
    (hInv : mgrInv s) : mgrInv (mgrPlayAzan err s) := by
  obtain ⟨sc, ip, lv, nid, als⟩ := s
  rcases sc with _ | hd
  · simp only [mgrInv] at hInv
    subst hInv
    cases err <;> simp [mgrPlayAzan, mgrInv]
  · simp only [mgrInv] at hInv
    rcases hInv with h | h <;> subst h <;> cases err <;>
      simp [mgrPlayAzan, mgrInv, List.erase_cons_head]

/-- C6: counterexample.  `start()` consults only `azanPlaying`, never the
loading flag: invoked on a mid-`Loading` (not yet playing) session it is
not a no-op — it proceeds to create a handle and switch to playing. -/
theorem playAzan_midloading_not_noop_cex :
    playAzan true 0 .ok ⟨some false, true, none, [], 0, none, []⟩ ≠
      ⟨some false, true, none, [], 0, none, []⟩ := by
  decide

/-- C6 (amended): the HomeScreen `start()` is a no-op when the session is
already Playing, but performs no mid-`Loading` check; two `start()` calls
in sequence still produce exactly one active handle (the second is a no-op
once playing), and both players preserve the at-most-one-live-handle
invariant because any prior handle is stopped and released before a new
one is created — the audioManager `start()` has no guard at all, yet also
never holds two handles. -/
theorem playAzan_single_flight (enabled : Bool) (now now2 : Nat) (err : PlayErr)
    (errStop : Bool) (s : AudioState) (ms : MgrState)
    (hInv : audioInv s) (hmInv : mgrInv ms) :
    (s.azanPlaying = some true → playAzan true now err s = s) ∧
    playAzan true now2 .ok (playAzan true now .ok s) = playAzan true now .ok s ∧
    audioInv (playAzan enabled now err s) ∧
    (playAzan enabled now err s).live.length ≤ 1 ∧
    audioInv (stopAzan now errStop s) ∧
    mgrInv (mgrPlayAzan err ms) ∧
    (mgrPlayAzan err ms).live.length ≤ 1 := by
  refine ⟨fun hp => by simp [playAzan, hp], ?_,
    playAzan_preserves_inv enabled now err s hInv,
    audioInv_length _ (playAzan_preserves_inv enabled now err s hInv),
    stopAzan_preserves_inv now errStop s hInv,
    mgrPlayAzan_preserves_inv err ms hmInv,
    mgrInv_length _ (mgrPlayAzan_preserves_inv err ms hmInv)⟩
  by_cases hp : s.azanPlaying = some true
  · have h1 : playAzan true now .ok s = s := by simp [playAzan, hp]
    rw [h1]
    simp [playAzan, hp]
  · rcases hsc : s.soundCur with _ | hd <;>
      simp [playAzan, hp, hsc]

/-- C6: witness at a concrete idle state with one stale handle. -/
theorem playAzan_single_flight_witness :
    (( ⟨some true, false, some 3, [3], 4, none, []⟩ : AudioState).azanPlaying = some true →
      playAzan true 9 .ok ⟨some true, false, some 3, [3], 4, none, []⟩ =
        ⟨some true, false, some 3, [3], 4, none, []⟩) ∧
    playAzan true 11 .ok (playAzan true 9 .ok ⟨some true, false, some 3, [3], 4, none, []⟩) =
      playAzan true 9 .ok ⟨some true, false, some 3, [3], 4, none, []⟩ ∧
    audioInv (playAzan true 9 .ok ⟨some true, false, some 3, [3], 4, none, []⟩) ∧
    (playAzan true 9 .ok ⟨some true, false, some 3, [3], 4, none, []⟩).live.length ≤ 1 ∧
    audioInv (stopAzan 9 false ⟨some true, false, some 3, [3], 4, none, []⟩) ∧
    mgrInv (mgrPlayAzan .ok ⟨some 0, true, [0], 1, []⟩) ∧
    (mgrPlayAzan .ok ⟨some 0, true, [0], 1, []⟩).live.length ≤ 1 :=
  playAzan_single_flight true 9 11 .ok false
    ⟨some true, false, some 3, [3], 4, none, []⟩ ⟨some 0, true, [0], 1, []⟩
    (Or.inr rfl) (Or.inr rfl)

/-- C7: `stop()` is a no-op when `azanPlaying` is falsy (`null` or
`false`); otherwise it stops, unloads and nulls the handle, sets
`azanPlaying` to `false`, and removes the persisted entry — so a read-back
of the persisted playback state afterwards reports not playing. -/
theorem stopAzan_correct (now now2 : Nat) (s : AudioState) :
    (s.azanPlaying ≠ some true → stopAzan now false s = s) ∧
    (s.azanPlaying = some true →
      (stopAzan now false s).azanPlaying = some false ∧
      (stopAzan now false s).soundCur = none ∧
      (∀ hd, s.soundCur = some hd → (stopAzan now false s).live = s.live.erase hd) ∧
      (stopAzan now false s).storage = none ∧
      (loadAzanState now2 (stopAzan now false s).storage).2 = some false) := by
  constructor
  · intro hp
    simp [stopAzan, hp]
  · intro hp
    rcases hsc : s.soundCur with _ | hd <;>
      simp [stopAzan, hp, hsc, saveAzanState, loadAzanState]

/-- C7: witness at a concrete playing state holding handle 0. -/
theorem stopAzan_correct_witness :
    (stopAzan 1000 false ⟨some true, false, some 0, [0], 1, some ⟨true, 5⟩, []⟩).azanPlaying
      = some false ∧
    (stopAzan 1000 false ⟨some true, false, some 0, [0], 1, some ⟨true, 5⟩, []⟩).soundCur
      = none ∧
    (∀ hd, (⟨some true, false, some 0, [0], 1, some ⟨true, 5⟩, []⟩ : AudioState).soundCur
        = some hd →
      (stopAzan 1000 false ⟨some true, false, some 0, [0], 1, some ⟨true, 5⟩, []⟩).live
        = ([0] : List Nat).erase hd) ∧
    (stopAzan 1000 false ⟨some true, false, some 0, [0], 1, some ⟨true, 5⟩, []⟩).storage
      = none ∧
    (loadAzanState 2000
      (stopAzan 1000 false ⟨some true, false, some 0, [0], 1, some ⟨true, 5⟩, []⟩).storage).2
      = some false :=
  (stopAzan_correct 1000 2000 ⟨some true, false, some 0, [0], 1, some ⟨true, 5⟩, []⟩).2 rfl

/-- C8: the once-at-mount load of the persisted playback state: no entry
yields `azanPlaying = false`; an `isPlaying` entry younger than the
300000 ms grace window restores playing; an older entry is discarded from
storage and the UI shows not-playing (`azanPlaying` stays `null`, which
renders as not playing). -/
theorem loadAzanState_correct (now ts : Nat) :
    loadAzanState now none = (none, some false) ∧
    ((now : Int) - (ts : Int) < 300000 →
      loadAzanState now (some ⟨true, ts⟩) = (some ⟨true, ts⟩, some true) ∧
      showsPlaying (loadAzanState now (some ⟨true, ts⟩)).2 = true) ∧
    (¬ (now : Int) - (ts : Int) < 300000 →
      loadAzanState now (some ⟨true, ts⟩) = (none, none) ∧
      showsPlaying (loadAzanState now (some ⟨true, ts⟩)).2 = false) := by
  refine ⟨rfl, fun hfresh => ?_, fun hstale => ?_⟩
  · simp [loadAzanState, showsPlaying, hfresh]
  · simp [loadAzanState, showsPlaying, hstale]

/-- C8: witness on the spec's two scenarios: a 10-minute-old playing entry
is discarded; a 1-minute-old one restores playing. -/
theorem loadAzanState_correct_witness :
    loadAzanState 600000 (some ⟨true, 0⟩) = (none, none) ∧
    loadAzanState 60000 (some ⟨true, 0⟩) = (some ⟨true, 0⟩, some true) :=
  ⟨((loadAzanState_correct 600000 0).2.2 (by decide)).1,
   ((loadAzanState_correct 60000 0).2.1 (by decide)).1⟩

/-- C9: counterexample.  The audioManager `start()` has no guard, so it can
run while already Playing; if stopping the prior handle then throws, the
error is caught and alerted but the machine is left Playing — not Idle as
the claim states for every acquisition error. -/
theorem mgr_play_error_stays_playing_cex :
    (mgrPlayAzan .stopPrior ⟨some 0, true, [0], 1, []⟩).isPlaying = true ∧
    (mgrPlayAzan .stopPrior ⟨some 0, true, [0], 1, []⟩).alerts = ["Audio Error"] := by
  decide

/-- C9 (amended): in the HomeScreen `start()`, every acquisition error
(stop/unload of a prior handle, or handle creation) is caught, surfaces an
"Audio Error" alert, clears the loading flag and leaves `azanPlaying`
unchanged — hence not Playing, since the guard allowed only a non-playing
session — and does not touch the persisted state.  The audioManager
`start()` likewise catches and alerts, and entered from Idle a creation
failure leaves it Idle; but entered while Playing (it has no guard), a
stop-prior failure leaves it Playing. -/
theorem playAzan_error_idle (now : Nat) (err : PlayErr) (s : AudioState) (ms : MgrState)
    (hguard : s.azanPlaying ≠ some true)
    (herr : (err = .stopPrior ∧ s.soundCur ≠ none) ∨ err = .create)
    (hms : ms.sound = none) :
    (playAzan true now err s).azanPlaying = s.azanPlaying ∧
    (playAzan true now err s).azanPlaying ≠ some true ∧
    (playAzan true now err s).audioLoading = false ∧
    (playAzan true now err s).alerts = s.alerts ++ ["Audio Error"] ∧
    (playAzan true now err s).storage = s.storage ∧
    (mgrPlayAzan .create ms).isPlaying = ms.isPlaying ∧
    (mgrPlayAzan .create ms).alerts = ms.alerts ++ ["Audio Error"] := by
  have hmgr : mgrPlayAzan .create ms = { ms with alerts := ms.alerts ++ ["Audio Error"] } := by
    simp [mgrPlayAzan, hms]
  rcases herr with ⟨rfl, hsome⟩ | rfl
  · rcases hsc : s.soundCur with _ | hd
    · exact absurd hsc hsome
    · simp [playAzan, hguard, hsc, hmgr]
  · rcases hsc : s.soundCur with _ | hd <;>
      simp [playAzan, hguard, hsc, hmgr]

/-- C9: witness at a stale-handle idle state with a stop-prior failure. -/
theorem playAzan_error_idle_witness :
    (playAzan true 0 .stopPrior ⟨none, false, some 7, [7], 8, none, []⟩).azanPlaying = none ∧
    (playAzan true 0 .stopPrior ⟨none, false, some 7, [7], 8, none, []⟩).azanPlaying
      ≠ some true ∧
    (playAzan true 0 .stopPrior ⟨none, false, some 7, [7], 8, none, []⟩).audioLoading = false ∧
    (playAzan true 0 .stopPrior ⟨none, false, some 7, [7], 8, none, []⟩).alerts
      = [] ++ ["Audio Error"] ∧
    (playAzan true 0 .stopPrior ⟨none, false, some 7, [7], 8, none, []⟩).storage = none ∧
    (mgrPlayAzan .create ⟨none, false, [], 0, []⟩).isPlaying = false ∧
    (mgrPlayAzan .create ⟨none, false, [], 0, []⟩).alerts = [] ++ ["Audio Error"] :=
  playAzan_error_idle 0 .stopPrior ⟨none, false, some 7, [7], 8, none, []⟩
    ⟨none, false, [], 0, []⟩ (by decide) (Or.inl ⟨rfl, by decide⟩) rfl

/-! ## 12-hour display conversion (HomeScreen.tsx 156-163 / part_002 115-122) -/

/-- JavaScript decimal rendering of a number, as in `${hour}`. -/
def natChars (n : Nat) : List Char := (Nat.repr n).data

/-- Source `convertTo12Hour`: split at `:`, `parseInt` the hour part, pick the
`PM` suffix when the hour is at least 12, reduce the hour modulo 12 with 0
mapped to 12, and re-assemble `hour:minute ampm` with the minute part
passed through verbatim. -/
def convertTo12Hour (timeStr : List Char) : List Char :=
  let parts := splitColon timeStr
  let hourStr := parts.headD []
  let minute := parts.tail.headD []
  let hour := digitsToNat hourStr
  let ampm := if 12 ≤ hour then "PM".data else "AM".data
  let hour2 := hour % 12
  let hour3 := if hour2 = 0 then 12 else hour2
  natChars hour3 ++ ':' :: minute ++ ' ' :: ampm

/-- C10: for every well-formed 24-hour time `HH:MM` (hour < 24, minute part
any colon-free string), `convertTo12Hour` renders an hour in [1,12] that is
congruent to the original hour modulo 12 (so 0 maps to 12 and 12 maps to
12), keeps the minute part unchanged, and appends AM exactly when the hour
is below 12. -/
theorem convertTo12Hour_correct (h : Nat) (m : List Char) (hh : h < 24) (hm : ':' ∉ m) :
    ∃ h12, 1 ≤ h12 ∧ h12 ≤ 12 ∧ h12 % 12 = h % 12 ∧
      convertTo12Hour (pad2 h ++ ':' :: m) =
        natChars h12 ++ ':' :: m ++ ' ' :: (if h < 12 then "AM".data else "PM".data) := by
  refine ⟨if h % 12 = 0 then 12 else h % 12, ?_, ?_, ?_, ?_⟩
  · split <;> omega
  · split <;> omega
  · split <;> omega
  · unfold convertTo12Hour
    rw [splitColon_append _ _ (pad2_no_colon h (by omega)), splitColon_no_colon _ hm]
    dsimp only [List.headD, List.tail]
    rw [digitsToNat_pad2 h (by omega)]
    by_cases h12 : h < 12
    · have hle : ¬ 12 ≤ h := by omega
      simp [hle, h12]
    · have hle : 12 ≤ h := by omega
      simp [hle, h12]

/-- C10: witness.  Hour 0 renders as 12 AM and hour 12 as 12 PM. -/
theorem convertTo12Hour_correct_witness :
    (∃ h12, 1 ≤ h12 ∧ h12 ≤ 12 ∧ h12 % 12 = 0 % 12 ∧
      convertTo12Hour (pad2 0 ++ ':' :: pad2 30) =
        natChars h12 ++ ':' :: pad2 30 ++ ' ' :: (if 0 < 12 then "AM".data else "PM".data)) ∧
    convertTo12Hour (timeChars 0 30) = "12:30 AM".data ∧
    convertTo12Hour (timeChars 12 5) = "12:05 PM".data ∧
    convertTo12Hour (timeChars 13 59) = "1:59 PM".data :=
  ⟨convertTo12Hour_correct 0 (pad2 30) (by decide) (by decide), by decide, by decide, by decide⟩

end EasyAdhan
